import Mathlib

/-!
Verification of the filter-matching core of `catlr` (src/main.cpp): the
pattern matcher `pattern_matches` (main.cpp:144-197) and the filter
evaluator `matches_filters` (main.cpp:207-250), shallowly embedded with
strings as `List Char`.
-/

namespace Catlr

/-- Shorthand for `String.toList`, used for concrete inputs. -/
def str (s : String) : List Char := s.toList

/-- Embeds `std::replace(pattern.begin(), pattern.end(), '\\', '/')`
(main.cpp:147): backslash separators become forward slashes. -/
def normalizeSlashes (p : List Char) : List Char :=
  p.map (fun c => if c = '\\' then '/' else c)

/-- Embeds the character loop at main.cpp:168-171: drop every star
character of the pattern. -/
def stripStars (p : List Char) : List Char :=
  p.filter (fun c => c ≠ '*')

/-- Shallow embedding of `pattern_matches` (main.cpp:144-197).  C++ string
operations become list operations: `find(c) != npos` is membership,
`find(s) != npos` is `<:+:` (a substring occurrence), `rfind(s, 0) == 0` is
`<+:` (an occurrence at index 0), `compare(len-n, n, s) == 0` is equality
of the length-`n` tail, and `substr` is `drop`/`dropLast` (so
`substr(1, length-2)` on the one-character pattern `*`, where the second
argument wraps around and is clamped, is `(drop 1).dropLast = []`).
`pattern.back()` on the empty pattern (main.cpp:178) is an out-of-range
access, i.e. undefined behaviour, modelled as `none`; every defined
outcome is `some b`. -/
def pattern_matches (rel_path_str filename_str pattern0 : List Char) : Option Bool :=
  let pattern := normalizeSlashes pattern0
  if '*' ∈ pattern then
    if pattern.head? = some '*' ∧ pattern.getLast? = some '*' then
      some (decide (((pattern.drop 1).dropLast) <:+: rel_path_str))
    else if pattern.head? = some '*' then
      let sfx := pattern.drop 1
      if rel_path_str.length < sfx.length then some false
      else some (decide (rel_path_str.drop (rel_path_str.length - sfx.length) = sfx))
    else if pattern.getLast? = some '*' then
      some (decide (pattern.dropLast <+: rel_path_str))
    else
      let processed := stripStars pattern
      if processed = [] then some true
      else some (decide (processed <:+: rel_path_str))
  else
    match pattern.getLast? with
    | none => none
    | some c =>
      if c = '/' then
        some (decide (rel_path_str = pattern.dropLast) || decide (pattern <+: rel_path_str))
      else if '/' ∈ pattern then
        some (decide (rel_path_str = pattern))
      else
        some (decide (filename_str = pattern))

/-- One include/exclude loop of `matches_filters` (main.cpp:225-240):
`some true` as soon as a pattern matches, `some false` when the list is
exhausted without a match, `none` when a `pattern_matches` call is
undefined before any match was found. -/
def anyPattern (rel fname : List Char) : List (List Char) → Option Bool
  | [] => some false
  | p :: ps =>
    match pattern_matches rel fname p with
    | none => none
    | some true => some true
    | some false => anyPattern rel fname ps

/-- Shallow embedding of `matches_filters` (main.cpp:207-250).  Deriving
the relative path and the filename from the filesystem path (the `try`
block, main.cpp:211-222) is filesystem I/O on `fs::path` values; its
outcome is this function's input `derived`: `none` when the derivation
threw, `some (rel, fname)` otherwise.  On `none` the evaluator fails
closed (main.cpp:221). -/
def matches_filters (derived : Option (List Char × List Char))
    (includes excludes : List (List Char)) : Option Bool :=
  match derived with
  | none => some false
  | some (rel, fname) =>
    match anyPattern rel fname includes with
    | none => none
    | some true => some true
    | some false =>
      match anyPattern rel fname excludes with
      | none => none
      | some true => some false
      | some false => if includes = [] then some true else some false

/-- Total value of `pattern_matches` on the defined (non-empty) patterns;
`false` at the undefined empty pattern.  Used to phrase the spec-side
algorithm at the `Bool` level. -/
def pmB (rel fname pat : List Char) : Bool :=
  (pattern_matches rel fname pat).getD false

/-- The Filter Evaluator algorithm exactly as the spec words it
(spec section 4.2, steps 1-4), written to be compared with the code's
`matches_filters`: include match wins, then exclude match hides, then a
non-empty include list hides (include-only mode), else visible. -/
def is_visible_spec (rel fname : List Char) (includes excludes : List (List Char)) : Bool :=
  if includes.any (pmB rel fname) then true
  else if excludes.any (pmB rel fname) then false
  else if includes ≠ [] then false
  else true

/-- Normalization does nothing on a pattern without backslashes. -/
theorem normalizeSlashes_eq_self {p : List Char} (h : '\\' ∉ p) : normalizeSlashes p = p := by
  induction p with
  | nil => rfl
  | cons a t ih =>
    rw [List.mem_cons, not_or] at h
    unfold normalizeSlashes at ih ⊢
    rw [List.map_cons, if_neg (fun e => h.1 e.symm), ih h.2]

/-- Normalization sends the empty pattern to the empty pattern and nothing else. -/
theorem normalizeSlashes_eq_nil_iff {p : List Char} : normalizeSlashes p = [] ↔ p = [] := by
  unfold normalizeSlashes
  exact List.map_eq_nil_iff

/-- Normalization neither creates nor destroys star characters. -/
theorem star_mem_normalizeSlashes {p : List Char} : '*' ∈ normalizeSlashes p ↔ '*' ∈ p := by
  unfold normalizeSlashes
  rw [List.mem_map]
  constructor
  · rintro ⟨c, hc, he⟩
    split at he
    · exact absurd he (by decide)
    · exact he ▸ hc
  · intro h
    exact ⟨'*', h, by decide⟩

/-- Normalization keeps every slash of the pattern. -/
theorem slash_mem_normalizeSlashes {p : List Char} (h : '/' ∈ p) : '/' ∈ normalizeSlashes p := by
  unfold normalizeSlashes
  rw [List.mem_map]
  exact ⟨'/', h, by decide⟩

/-- On every non-empty pattern `pattern_matches` reaches a defined boolean:
the only undefined branch is `pattern.back()` on the empty pattern. -/
theorem pattern_matches_isSome {rel fname pat : List Char} (h : pat ≠ []) :
    (pattern_matches rel fname pat).isSome = true := by
  have hn : normalizeSlashes pat ≠ [] := fun e => h (normalizeSlashes_eq_nil_iff.mp e)
  simp only [pattern_matches]
  split
  · split
    · rfl
    · split
      · split <;> rfl
      · split
        · rfl
        · split <;> rfl
  · split
    · rename_i heq
      exact absurd (List.getLast?_eq_none_iff.mp heq) hn
    · split
      · rfl
      · split <;> rfl

/-- On a non-empty pattern, `pattern_matches` is `some` of its total value `pmB`. -/
theorem pattern_matches_eq_pmB {rel fname pat : List Char} (h : pat ≠ []) :
    pattern_matches rel fname pat = some (pmB rel fname pat) := by
  obtain ⟨b, hb⟩ := Option.isSome_iff_exists.mp (pattern_matches_isSome h)
  rw [pmB, hb, Option.getD_some]

/-- `pmB` is `true` exactly when the code's matcher returns `some true`
(for a defined, i.e. non-empty, pattern). -/
theorem pmB_eq_true_iff {rel fname p : List Char} (h : p ≠ []) :
    pmB rel fname p = true ↔ pattern_matches rel fname p = some true := by
  rw [@pattern_matches_eq_pmB rel fname p h, Option.some_inj]

/-- The include/exclude loop on defined patterns is the boolean `any` of `pmB`. -/
theorem anyPattern_eq {rel fname : List Char} {ps : List (List Char)}
    (h : ∀ p ∈ ps, p ≠ []) :
    anyPattern rel fname ps = some (ps.any (pmB rel fname)) := by
  induction ps with
  | nil => rfl
  | cons p t ih =>
    have hp : p ≠ [] := h p (List.mem_cons_self p t)
    have ht : ∀ q ∈ t, q ≠ [] := fun q hq => h q (List.mem_cons_of_mem p hq)
    unfold anyPattern
    rw [@pattern_matches_eq_pmB rel fname p hp]
    cases hb : pmB rel fname p
    · rw [List.any_cons, hb, Bool.false_or, ← ih ht]
    · rw [List.any_cons, hb, Bool.true_or]

/-- The code's filter evaluator agrees with the spec's four-step algorithm on
every successfully derived path, provided all patterns are non-empty
(defined). -/
theorem matches_filters_eq_spec {rel fname : List Char}
    {includes excludes : List (List Char)}
    (hi : ∀ p ∈ includes, p ≠ []) (he : ∀ p ∈ excludes, p ≠ []) :
    matches_filters (some (rel, fname)) includes excludes
      = some (is_visible_spec rel fname includes excludes) := by
  simp only [matches_filters]
  rw [anyPattern_eq hi, anyPattern_eq he]
  unfold is_visible_spec
  cases hI : includes.any (pmB rel fname)
  · cases hE : excludes.any (pmB rel fname)
    · by_cases hne : includes = [] <;> simp [hne]
    · simp
  · simp

/-- With a non-empty include list the spec-side evaluator reduces to the
include test alone; the exclude list is immaterial. -/
theorem is_visible_spec_of_ne_nil {rel fname : List Char}
    {includes excludes : List (List Char)} (h : includes ≠ []) :
    is_visible_spec rel fname includes excludes = includes.any (pmB rel fname) := by
  unfold is_visible_spec
  cases hI : includes.any (pmB rel fname)
  · simp [h]
  · simp

/-- Branch lemma for the suffix-wildcard branch (main.cpp:156-162): a pattern
`*X` with `X` non-empty, not ending in a star and without backslashes takes
the tail-comparison branch guarded by the length check. -/
theorem pattern_matches_suffix_branch {rel fname X : List Char}
    (hne : X ≠ []) (hlast : X.getLast? ≠ some '*') (hbs : '\\' ∉ X) :
    pattern_matches rel fname ('*' :: X)
      = if rel.length < X.length then some false
        else some (decide (rel.drop (rel.length - X.length) = X)) := by
  have hbs' : '\\' ∉ ('*' :: X) := by
    rw [List.mem_cons, not_or]
    exact ⟨by decide, hbs⟩
  have hget : ('*' :: X).getLast? = X.getLast? := by
    cases X with
    | nil => exact absurd rfl hne
    | cons a t => exact List.getLast?_cons_cons
  have hcond : ¬ (('*' :: X).head? = some '*' ∧ ('*' :: X).getLast? = some '*') := by
    rintro ⟨-, h2⟩
    rw [hget] at h2
    exact hlast h2
  simp only [pattern_matches, normalizeSlashes_eq_self hbs']
  rw [if_pos (List.mem_cons_self '*' X), if_neg hcond,
    if_pos (show ('*' :: X).head? = some '*' from rfl)]
  rfl

/-- Branch lemma for the directory branch (main.cpp:178-188): a star-free,
backslash-free pattern `D ++ "/"` matches exactly when the relative path is
`D` itself or has `D ++ "/"` as a prefix. -/
theorem pattern_matches_dir_branch {rel fname D : List Char}
    (hstar : '*' ∉ D) (hbs : '\\' ∉ D) :
    pattern_matches rel fname (D ++ ['/'])
      = some (decide (rel = D) || decide ((D ++ ['/']) <+: rel)) := by
  have hbs' : '\\' ∉ (D ++ ['/']) := by
    rw [List.mem_append, not_or]
    exact ⟨hbs, by decide⟩
  have hstar' : '*' ∉ (D ++ ['/']) := by
    rw [List.mem_append, not_or]
    exact ⟨hstar, by decide⟩
  simp only [pattern_matches, normalizeSlashes_eq_self hbs']
  rw [if_neg hstar', List.getLast?_concat]
  simp only [if_pos rfl, List.dropLast_concat, if_true]

/-- Branch lemma for the bare-name branch (main.cpp:190-193): a non-empty
pattern without stars, slashes and backslashes compares against the filename
alone. -/
theorem pattern_matches_bare_branch {rel fname D : List Char}
    (hstar : '*' ∉ D) (hsl : '/' ∉ D) (hbs : '\\' ∉ D) (hne : D ≠ []) :
    pattern_matches rel fname D = some (decide (fname = D)) := by
  obtain ⟨c, hc⟩ := Option.isSome_iff_exists.mp (List.getLast?_isSome.mpr hne)
  have hcD : c ∈ D := List.mem_of_mem_getLast? hc
  have hc' : c ≠ '/' := fun e => hsl (e ▸ hcD)
  simp only [pattern_matches, normalizeSlashes_eq_self hbs]
  rw [if_neg hstar, hc]
  simp only [if_neg hc', if_neg hsl]

/-- Branch lemma for the stripped-containment fallback (main.cpp:167-174): a
pattern that contains a star but neither starts nor ends with one falls
through to substring containment of its star-free residue. -/
theorem pattern_matches_fallback_branch {rel fname pat : List Char}
    (hstar : '*' ∈ pat) (hbs : '\\' ∉ pat)
    (hhead : pat.head? ≠ some '*') (hlast : pat.getLast? ≠ some '*') :
    pattern_matches rel fname pat = some (decide (stripStars pat <:+: rel)) := by
  have hproc : stripStars pat ≠ [] := by
    cases pat with
    | nil => cases hstar
    | cons a t =>
      have ha : a ≠ '*' := fun e => hhead (by rw [List.head?_cons, e])
      unfold stripStars
      rw [List.filter_cons, if_pos (decide_eq_true ha)]
      exact List.cons_ne_nil a _
  simp only [pattern_matches, normalizeSlashes_eq_self hbs]
  rw [if_pos hstar, if_neg (fun hand => hhead hand.1), if_neg hhead, if_neg hlast,
    if_neg hproc]

/-- Branch lemma for the lone star: `*` takes the both-ends-star branch with
an empty middle, hence matches every relative path. -/
theorem pattern_matches_star {rel fname : List Char} :
    pattern_matches rel fname ['*'] = some true := by
  simp only [pattern_matches]
  rw [if_pos (show '*' ∈ normalizeSlashes ['*'] by decide),
    if_pos (show (normalizeSlashes ['*']).head? = some '*'
        ∧ (normalizeSlashes ['*']).getLast? = some '*' by decide)]
  rw [show ((normalizeSlashes ['*']).drop 1).dropLast = ([] : List Char) by decide]
  simp [List.nil_infix]

/-- Patterns that contain a star or a slash never reach the filename
comparison (main.cpp:192): their result ignores the filename argument. -/
theorem pattern_matches_filename_free {pat rel f1 f2 : List Char}
    (h : '*' ∈ pat ∨ '/' ∈ pat) :
    pattern_matches rel f1 pat = pattern_matches rel f2 pat := by
  simp only [pattern_matches]
  by_cases hs : '*' ∈ normalizeSlashes pat
  · rw [if_pos hs, if_pos hs]
  · have hsl : '/' ∈ normalizeSlashes pat := by
      rcases h with h | h
      · exact absurd (star_mem_normalizeSlashes.mpr h) hs
      · exact slash_mem_normalizeSlashes h
    rw [if_neg hs, if_neg hs]
    cases hg : (normalizeSlashes pat).getLast? with
    | none => rfl
    | some c =>
      by_cases hc : c = '/'
      · simp only [if_pos hc]
      · simp only [if_neg hc, if_pos hsl]

/-- C1: the filter evaluator implements exactly the spec's four-step
algorithm — an include match wins immediately over the excludes, else an
exclude match hides, else a non-empty include list hides (include-only
mode), else visible — for every relative path, filename and include and
exclude lists of defined (non-empty) patterns; and in particular
`is_visible("build/main.js", "main.js", ["build/main.js"], ["build/"])`
is visible. -/
theorem C1_filter_evaluator_four_steps :
    (∀ (rel fname : List Char) (includes excludes : List (List Char)),
      (∀ p ∈ includes, p ≠ []) → (∀ p ∈ excludes, p ≠ []) →
      matches_filters (some (rel, fname)) includes excludes
        = some (is_visible_spec rel fname includes excludes))
    ∧ matches_filters (some (str "build/main.js", str "main.js"))
        [str "build/main.js"] [str "build/"] = some true :=
  ⟨fun _ _ _ _ hi he => matches_filters_eq_spec hi he, by decide⟩

/-- C1 witness: the algorithm equation applied at a concrete path and
concrete filter lists, the non-empty-pattern hypotheses discharged. -/
theorem C1_filter_evaluator_four_steps_witness :
    (∀ p ∈ [str "build/main.js"], p ≠ []) ∧ (∀ p ∈ [str "build/"], p ≠ [])
    ∧ matches_filters (some (str "x.txt", str "x.txt"))
        [str "build/main.js"] [str "build/"]
      = some (is_visible_spec (str "x.txt") (str "x.txt")
          [str "build/main.js"] [str "build/"]) :=
  ⟨by decide, by decide,
    C1_filter_evaluator_four_steps.1 _ _ _ _ (by decide) (by decide)⟩

/-- C2 (code bug): the matcher is NOT total on every pattern — on the empty
pattern the code reaches `pattern.back()` on an empty string (main.cpp:178),
an out-of-range access (undefined behaviour, modelled `none`); on every
non-empty pattern it does evaluate to a defined boolean. -/
theorem C2_empty_pattern_undefined :
    pattern_matches (str "a") (str "a") (str "") = none
    ∧ ∀ (rel fname pat : List Char), pat ≠ [] →
        (pattern_matches rel fname pat).isSome = true :=
  ⟨by decide, fun _ _ _ h => pattern_matches_isSome h⟩

/-- C2 witness: totality applied at a concrete non-empty pattern. -/
theorem C2_empty_pattern_undefined_witness :
    str "x" ≠ [] ∧ (pattern_matches (str "p/q") (str "q") (str "x")).isSome = true :=
  ⟨by decide, C2_empty_pattern_undefined.2 _ _ _ (by decide)⟩

/-- C3 counterexample: in the end-to-end scenario (includes
`["build/main.js"]`, excludes `["build/"]`) the path `src/a.cpp`, which the
claim lists as visible, is hidden: the non-empty include list puts the
evaluator in include-only mode and no include pattern matches it. -/
theorem C3_end_to_end_counterexample :
    matches_filters (some (str "src/a.cpp", str "a.cpp"))
      [str "build/main.js"] [str "build/"] = some false := by decide

/-- C3 (amended): with includes `["build/main.js"]` and excludes
`["build/"]`, exactly `build/main.js` is visible out of the four scenario
paths; `src/a.cpp`, `src/a.cpp.bak` and `build/out.js` are hidden. -/
theorem C3_end_to_end_amended :
    matches_filters (some (str "src/a.cpp", str "a.cpp"))
        [str "build/main.js"] [str "build/"] = some false
    ∧ matches_filters (some (str "src/a.cpp.bak", str "a.cpp.bak"))
        [str "build/main.js"] [str "build/"] = some false
    ∧ matches_filters (some (str "build/out.js", str "out.js"))
        [str "build/main.js"] [str "build/"] = some false
    ∧ matches_filters (some (str "build/main.js", str "main.js"))
        [str "build/main.js"] [str "build/"] = some true :=
  ⟨by decide, by decide, by decide, by decide⟩

/-- C4: a suffix-wildcard pattern `*X` (leading star, no trailing star, `X`
in normalized form) matches exactly the relative paths that end in `X`, and
returns `some false` — no exception — whenever the path is shorter than `X`;
on the spec's examples, `*.cpp` matches `src/a.cpp` and `a.cpp` but not
`src/a.cpp.bak`. -/
theorem C4_suffix_wildcard :
    (∀ (X rel fname : List Char), X ≠ [] → X.getLast? ≠ some '*' → '\\' ∉ X →
      pattern_matches rel fname ('*' :: X) = some (decide (X <:+ rel))
      ∧ (rel.length < X.length → pattern_matches rel fname ('*' :: X) = some false))
    ∧ pattern_matches (str "src/a.cpp") (str "a.cpp") (str "*.cpp") = some true
    ∧ pattern_matches (str "a.cpp") (str "a.cpp") (str "*.cpp") = some true
    ∧ pattern_matches (str "src/a.cpp.bak") (str "a.cpp.bak") (str "*.cpp") = some false := by
  refine ⟨fun X rel fname hne hlast hbs => ?_, by decide, by decide, by decide⟩
  rw [pattern_matches_suffix_branch hne hlast hbs]
  constructor
  · by_cases hlt : rel.length < X.length
    · rw [if_pos hlt]
      have hnos : ¬ (X <:+ rel) := fun hs => absurd hs.length_le (by omega)
      rw [decide_eq_false_iff_not.mpr hnos]
    · rw [if_neg hlt]
      congr 1
      apply decide_eq_decide.mpr
      constructor
      · intro h
        rw [List.suffix_iff_eq_drop]
        exact h.symm
      · intro h
        exact (List.suffix_iff_eq_drop.mp h).symm
  · intro hlt
    rw [if_pos hlt]

/-- C4 witness: the suffix equivalence and the too-short guarantee applied
at concrete inputs, hypotheses discharged. -/
theorem C4_suffix_wildcard_witness :
    (str ".cpp" ≠ [] ∧ (str ".cpp").getLast? ≠ some '*' ∧ '\\' ∉ str ".cpp")
    ∧ pattern_matches (str "lib/b.cpp") (str "b.cpp") ('*' :: str ".cpp")
        = some (decide (str ".cpp" <:+ str "lib/b.cpp"))
    ∧ pattern_matches (str "a") (str "a") ('*' :: str ".cpp") = some false :=
  ⟨by decide,
    (C4_suffix_wildcard.1 _ _ (str "b.cpp") (by decide) (by decide) (by decide)).1,
    (C4_suffix_wildcard.1 _ _ (str "a") (by decide) (by decide) (by decide)).2
      (by decide)⟩

/-- C5: a star-free pattern that ends in a slash, written `D ++ "/"` with
`D` in normalized form, matches exactly the paths equal to `D` or starting
with `D ++ "/"`; on the spec's examples, `build/` matches `build` and
`build/main.js` but not `nbuild` or `xbuild/y`. -/
theorem C5_directory_pattern :
    (∀ (D rel fname : List Char), '*' ∉ D → '\\' ∉ D →
      pattern_matches rel fname (D ++ ['/'])
        = some (decide (rel = D) || decide ((D ++ ['/']) <+: rel)))
    ∧ pattern_matches (str "build") (str "build") (str "build/") = some true
    ∧ pattern_matches (str "build/main.js") (str "main.js") (str "build/") = some true
    ∧ pattern_matches (str "nbuild") (str "nbuild") (str "build/") = some false
    ∧ pattern_matches (str "xbuild/y") (str "y") (str "build/") = some false :=
  ⟨fun _ _ _ hstar hbs => pattern_matches_dir_branch hstar hbs,
    by decide, by decide, by decide, by decide⟩

/-- C5 witness: the directory equivalence applied at a concrete path and
directory name, hypotheses discharged. -/
theorem C5_directory_pattern_witness :
    ('*' ∉ str "out" ∧ '\\' ∉ str "out")
    ∧ pattern_matches (str "out/x.txt") (str "x.txt") (str "out" ++ ['/'])
        = some (decide (str "out/x.txt" = str "out")
            || decide ((str "out" ++ ['/']) <+: str "out/x.txt")) :=
  ⟨by decide, C5_directory_pattern.1 _ _ (str "x.txt") (by decide) (by decide)⟩

/-- C6: a pattern that contains a star but has none of the shapes `*X*`,
`*X`, `X*` (its first and last characters are not stars) falls back to
substring containment of its star-stripped text; the lone star `*`, whose
stripped text is empty, matches every path (the code routes it through the
both-ends-star branch with an empty middle, with the same result). -/
theorem C6_wildcard_fallback :
    (∀ (pat rel fname : List Char), '*' ∈ pat → '\\' ∉ pat →
      pat.head? ≠ some '*' → pat.getLast? ≠ some '*' →
      pattern_matches rel fname pat = some (decide (stripStars pat <:+: rel)))
    ∧ (∀ rel fname : List Char, pattern_matches rel fname ['*'] = some true)
    ∧ pattern_matches (str "xbdy") (str "xbdy") (str "b*d") = some true
    ∧ pattern_matches (str "abcd") (str "abcd") (str "b*d") = some false :=
  ⟨fun _ _ _ hs hbs hh hl => pattern_matches_fallback_branch hs hbs hh hl,
    fun _ _ => pattern_matches_star, by decide, by decide⟩

/-- C6 witness: the stripped-containment fallback applied at a concrete
pattern and path, hypotheses discharged. -/
theorem C6_wildcard_fallback_witness :
    ('*' ∈ str "b*d" ∧ '\\' ∉ str "b*d"
      ∧ (str "b*d").head? ≠ some '*' ∧ (str "b*d").getLast? ≠ some '*')
    ∧ pattern_matches (str "xbdy") (str "f") (str "b*d")
        = some (decide (stripStars (str "b*d") <:+: str "xbdy")) :=
  ⟨by decide,
    C6_wildcard_fallback.1 _ _ (str "f") (by decide) (by decide) (by decide) (by decide)⟩

/-- C7: when the relative-path derivation threw (unrelated roots or invalid
encoding), the evaluator reports not visible — it fails closed instead of
raising — whatever the include and exclude lists are. -/
theorem C7_derivation_failure_fails_closed :
    ∀ includes excludes : List (List Char),
      matches_filters none includes excludes = some false :=
  fun _ _ => rfl

/-- C8: with a non-empty include list (all patterns defined), the exclude
list has no influence: any two defined exclude lists yield the same verdict,
and that verdict is visible exactly when some include pattern matches. -/
theorem C8_excludes_immaterial_in_include_only_mode :
    ∀ (rel fname : List Char) (includes E1 E2 : List (List Char)),
      includes ≠ [] → (∀ p ∈ includes, p ≠ []) →
      (∀ p ∈ E1, p ≠ []) → (∀ p ∈ E2, p ≠ []) →
      matches_filters (some (rel, fname)) includes E1
          = matches_filters (some (rel, fname)) includes E2
      ∧ (matches_filters (some (rel, fname)) includes E1 = some true
          ↔ ∃ p ∈ includes, pattern_matches rel fname p = some true) := by
  intro rel fname includes E1 E2 hne hi h1 h2
  rw [matches_filters_eq_spec hi h1, matches_filters_eq_spec hi h2,
    is_visible_spec_of_ne_nil hne, is_visible_spec_of_ne_nil hne]
  refine ⟨rfl, ?_⟩
  rw [Option.some_inj, List.any_eq_true]
  constructor
  · rintro ⟨p, hp, hb⟩
    exact ⟨p, hp, (pmB_eq_true_iff (hi p hp)).mp hb⟩
  · rintro ⟨p, hp, hb⟩
    exact ⟨p, hp, (pmB_eq_true_iff (hi p hp)).mpr hb⟩

/-- C8 witness: the exclude-independence and the include characterization
applied at a concrete path with two different exclude lists. -/
theorem C8_excludes_immaterial_witness :
    (([str "a"] : List (List Char)) ≠ [] ∧ (∀ p ∈ [str "a"], p ≠ [])
      ∧ (∀ p ∈ [str "b/"], p ≠ []) ∧ (∀ p ∈ ([] : List (List Char)), p ≠ []))
    ∧ (matches_filters (some (str "a", str "a")) [str "a"] [str "b/"]
        = matches_filters (some (str "a", str "a")) [str "a"] []
      ∧ (matches_filters (some (str "a", str "a")) [str "a"] [str "b/"] = some true
        ↔ ∃ p ∈ [str "a"], pattern_matches (str "a") (str "a") p = some true)) :=
  ⟨⟨by decide, by decide, by decide, by decide⟩,
    C8_excludes_immaterial_in_include_only_mode (str "a") (str "a")
      [str "a"] [str "b/"] [] (by decide) (by decide) (by decide) (by decide)⟩

/-- C9: a pattern containing a star or a slash is independent of the
filename argument, and a bare-name pattern — no star, no slash, and no
backslash, i.e. bare in the normalized form the data model prescribes — is
independent of the relative-path argument. -/
theorem C9_argument_independence :
    (∀ (pat rel f1 f2 : List Char), ('*' ∈ pat ∨ '/' ∈ pat) →
      pattern_matches rel f1 pat = pattern_matches rel f2 pat)
    ∧ (∀ (pat r1 r2 fname : List Char), '*' ∉ pat → '/' ∉ pat → '\\' ∉ pat →
      pattern_matches r1 fname pat = pattern_matches r2 fname pat) := by
  constructor
  · intro pat rel f1 f2 h
    exact pattern_matches_filename_free h
  · intro pat r1 r2 fname hs hsl hbs
    by_cases hne : pat = []
    · subst hne
      rfl
    · rw [pattern_matches_bare_branch hs hsl hbs hne,
        pattern_matches_bare_branch hs hsl hbs hne]

/-- C9 witness: both independence statements applied at concrete inputs,
hypotheses discharged. -/
theorem C9_argument_independence_witness :
    ('*' ∈ str "*.cpp" ∨ '/' ∈ str "*.cpp")
    ∧ pattern_matches (str "a.cpp") (str "f1") (str "*.cpp")
        = pattern_matches (str "a.cpp") (str "f2") (str "*.cpp")
    ∧ ('*' ∉ str "name" ∧ '/' ∉ str "name" ∧ '\\' ∉ str "name")
    ∧ pattern_matches (str "a/name") (str "name") (str "name")
        = pattern_matches (str "b/c/name") (str "name") (str "name") :=
  ⟨by decide,
    C9_argument_independence.1 _ _ _ _ (by decide),
    by decide,
    C9_argument_independence.2 _ _ _ (str "name") (by decide) (by decide) (by decide)⟩

/-- C10 counterexample: the directory pattern `build/` DOES match the
relative path `build/build`, a path nested below the traversal root whose
final component is `build` — so the claim's "never matches a path nested
below the root whose final component is d" is false as stated. -/
theorem C10_anchoring_counterexample :
    str "build/build" = str "build" ++ '/' :: str "build"
    ∧ pattern_matches (str "build/build") (str "build") (str "build" ++ ['/'])
        = some true :=
  ⟨by decide, by decide⟩

/-- C10 (amended): the directory pattern `d ++ "/"` is anchored at the
traversal root: it never matches a path `r ++ "/" ++ d` (final component
`d`, nested below the root) unless that path already lies under the
top-level directory `d`, i.e. has `d ++ "/"` as a prefix; in contrast the
bare pattern `d` matches by filename alone, at any depth. -/
theorem C10_directory_anchoring_amended :
    (∀ (d r fname : List Char), '*' ∉ d → '/' ∉ d → '\\' ∉ d →
      ¬ ((d ++ ['/']) <+: (r ++ '/' :: d)) →
      pattern_matches (r ++ '/' :: d) fname (d ++ ['/']) = some false)
    ∧ (∀ (d rel fname : List Char), '*' ∉ d → '/' ∉ d → '\\' ∉ d → d ≠ [] →
      pattern_matches rel fname d = some (decide (fname = d))) := by
  constructor
  · intro d r fname hs hsl hbs hpre
    rw [pattern_matches_dir_branch hs hbs]
    have hne : r ++ '/' :: d ≠ d := by
      intro e
      have hlen := congrArg List.length e
      simp [List.length_append, List.length_cons] at hlen
      omega
    rw [decide_eq_false_iff_not.mpr hne, decide_eq_false_iff_not.mpr hpre]
    rfl
  · intro d rel fname hs hsl hbs hne
    exact pattern_matches_bare_branch hs hsl hbs hne

/-- C10 witness: anchoring at `src/build` against `build/`, and the bare
pattern `build` matching by filename, hypotheses discharged. -/
theorem C10_directory_anchoring_witness :
    ('*' ∉ str "build" ∧ '/' ∉ str "build" ∧ '\\' ∉ str "build"
      ∧ ¬ ((str "build" ++ ['/']) <+: (str "src" ++ '/' :: str "build"))
      ∧ str "build" ≠ [])
    ∧ pattern_matches (str "src" ++ '/' :: str "build") (str "build")
        (str "build" ++ ['/']) = some false
    ∧ pattern_matches (str "deep/path/build") (str "build") (str "build")
        = some (decide (str "build" = str "build")) :=
  ⟨by decide,
    C10_directory_anchoring_amended.1 _ _ (str "build")
      (by decide) (by decide) (by decide) (by decide),
    C10_directory_anchoring_amended.2 _ _ (str "build")
      (by decide) (by decide) (by decide) (by decide)⟩


end Catlr
